import Mathlib

/-! Verification of the s8s scale-request compiler
(`melctl_client_plugins/s8s/s8s.py`, class `Scale`).

The embedding models:
  * `PartitionKind` — the closed partition set `Scale.partitions = ('cpu', 'gpu', 'mem', 'fpga')`;
  * `ScaleSpecEntry` — one parsed `<nodes>:<seconds>` token (`regex_scalespecs` group dict,
    both groups converted by `int` at use sites);
  * `ScaleArgs` — the argparse namespace after `reprocess_args` succeeded: the resolved
    identity fields, the dry-run flag, and one accumulated spec list per partition
    (argparse `action='append'`);
  * `Scale.buildSpecs` — the triple loop in `Scale.target` that appends one request dict
    per node onto `scale_specs`;
  * `Scale.target` — the guard `len(scale_specs) < 1` with its usage message and
    `sys.exit(1)`, followed by the sequential POST loop with `raise_for_status`.
-/

inductive PartitionKind where
  | cpu
  | gpu
  | mem
  | fpga
deriving DecidableEq, Repr

def PartitionKind.name : PartitionKind → String
  | .cpu => "cpu"
  | .gpu => "gpu"
  | .mem => "mem"
  | .fpga => "fpga"

/-- One parsed `<nodes>:<seconds>` token: `regex_scalespecs.match(arg).groupdict()`,
with both captured digit strings converted via `int(...)` in `Scale.target`. -/
structure ScaleSpecEntry where
  nodes : Nat
  time : Nat
deriving DecidableEq, Repr

/-- The JSON body posted for one node: the dict literal built in `Scale.target`.
`features` is the one-key dict `{part: True}` keyed by the partition name string. -/
structure NodeRequest where
  region : String
  pool : String
  features : List (String × Bool)
  seconds : Nat
  master : String
  token : String
deriving DecidableEq, Repr

/-- The remote API response body for one request (`req.json()`), opaque here. -/
structure ScaleResult where
  body : String
deriving DecidableEq, Repr

/-- The two terminal failure modes of `Scale.target`: the `sys.exit(1)` after printing
the scaling-specifications usage line, and a `raise_for_status` HTTP failure. -/
inductive ScaleError where
  | validation (message : String)
  | remote (message : String)
deriving DecidableEq, Repr

/-- The argparse namespace consumed by `Scale.target` once `reprocess_args` resolved
the identity: `args.region/pool/master/token`, `args.dry_run`, and the per-partition
appended lists `args.specs_cpu` .. `args.specs_fpga`. -/
structure ScaleArgs where
  region : String
  pool : String
  master : String
  token : String
  dryRun : Bool
  specsCpu : List ScaleSpecEntry
  specsGpu : List ScaleSpecEntry
  specsMem : List ScaleSpecEntry
  specsFpga : List ScaleSpecEntry

/-- `getattr(args, f'specs_{part}')`. -/
def ScaleArgs.specs (args : ScaleArgs) : PartitionKind → List ScaleSpecEntry
  | .cpu => args.specsCpu
  | .gpu => args.specsGpu
  | .mem => args.specsMem
  | .fpga => args.specsFpga

namespace Scale

/-- `Scale.partitions = ('cpu', 'gpu', 'mem', 'fpga')`. -/
def partitions : List PartitionKind :=
  [PartitionKind.cpu, PartitionKind.gpu, PartitionKind.mem, PartitionKind.fpga]

/-- The dict appended to `scale_specs` for one node of one spec entry. -/
def mkNodeSpec (args : ScaleArgs) (part : PartitionKind) (e : ScaleSpecEntry) : NodeRequest :=
  { region := args.region
    pool := args.pool
    features := [(part.name, true)]
    seconds := e.time
    master := args.master
    token := args.token }

/-- The triple loop of `Scale.target` building `scale_specs`:
`for part in self.partitions: for part_specs in getattr(args, f'specs_{part}'):
for _ in range(int(part_specs['nodes'])): scale_specs.append({...})`. -/
def buildSpecs (args : ScaleArgs) : List NodeRequest :=
  partitions.foldl
    (fun acc part =>
      (args.specs part).foldl
        (fun acc2 e =>
          (List.range e.nodes).foldl (fun acc3 _ => acc3 ++ [mkNodeSpec args part e]) acc2)
        acc)
    []

/-- The usage message printed when no node was requested:
`'Scaling specifications required: ' + ', '.join('[--'+p+' <nodes>:<seconds>]' ...)`. -/
def usageMessage : String :=
  "Scaling specifications required: "
    ++ String.intercalate ", "
      (partitions.map (fun p => "[--" ++ p.name ++ " <nodes>:<seconds>]"))

/-- The sequential POST loop: each request is sent in order with the dry-run flag as a
query parameter; `raise_for_status` aborts on the first failure, discarding the stats
collected so far. Returns the list of requests actually posted together with either
the collected response bodies or the first failure. -/
def dispatch (api : NodeRequest → Bool → Except String ScaleResult) (dry : Bool) :
    List NodeRequest → List NodeRequest × Except ScaleError (List ScaleResult)
  | [] => ([], Except.ok [])
  | r :: rs =>
    match api r dry with
    | Except.error e => ([r], Except.error (ScaleError.remote e))
    | Except.ok s =>
      let rest := dispatch api dry rs
      (r :: rest.1, rest.2.map (fun stats => s :: stats))

/-- `Scale.target` after `reprocess_args`: build `scale_specs`, exit with the usage
message if fewer than one request was compiled, otherwise dispatch sequentially. -/
def target (args : ScaleArgs) (api : NodeRequest → Bool → Except String ScaleResult) :
    List NodeRequest × Except ScaleError (List ScaleResult) :=
  let specs := buildSpecs args
  if specs.length < 1 then
    ([], Except.error (ScaleError.validation usageMessage))
  else
    dispatch api args.dryRun specs

/-- argparse `action='append'` over the command line: each `--<partition> <token>`
occurrence, in the order supplied, appends its parsed entry to that partition's list. -/
def collectSpecs (flags : List (PartitionKind × ScaleSpecEntry)) :
    PartitionKind → List ScaleSpecEntry :=
  flags.foldl
    (fun acc f => fun p => if f.1 = p then acc p ++ [f.2] else acc p)
    (fun _ => [])

/-- The argparse namespace produced by a given command line (identity flags already
resolved, partition flags in supply order). -/
def argsFromFlags (region pool master token : String) (dryRun : Bool)
    (flags : List (PartitionKind × ScaleSpecEntry)) : ScaleArgs :=
  { region := region
    pool := pool
    master := master
    token := token
    dryRun := dryRun
    specsCpu := collectSpecs flags PartitionKind.cpu
    specsGpu := collectSpecs flags PartitionKind.gpu
    specsMem := collectSpecs flags PartitionKind.mem
    specsFpga := collectSpecs flags PartitionKind.fpga }

end Scale

section Lemmas

/-- Folding an append of `f x` over a list prepends the accumulator to the flat map. -/
theorem foldl_append_flatMap {α β : Type} (f : α → List β) :
    ∀ (l : List α) (acc : List β),
      l.foldl (fun a x => a ++ f x) acc = acc ++ l.flatMap f
  | [], acc => by simp
  | x :: xs, acc => by
    simp only [List.foldl_cons, List.flatMap_cons, foldl_append_flatMap f xs,
      List.append_assoc]

/-- Appending a constant element once per list position yields a replicate block. -/
theorem foldl_append_const {α β : Type} (x : β) :
    ∀ (l : List α) (acc : List β),
      l.foldl (fun a _ => a ++ [x]) acc = acc ++ List.replicate l.length x
  | [], acc => by simp
  | y :: ys, acc => by
    rw [List.foldl_cons, foldl_append_const x ys, List.append_assoc]
    simp [List.replicate_succ]

/-- The middle loop over one partition's entry list, in flat-map form. -/
theorem entry_foldl (args : ScaleArgs) (part : PartitionKind)
    (l : List ScaleSpecEntry) (acc : List NodeRequest) :
    l.foldl
        (fun a e =>
          (List.range e.nodes).foldl (fun a2 _ => a2 ++ [Scale.mkNodeSpec args part e]) a)
        acc
      = acc ++ l.flatMap (fun e => List.replicate e.nodes (Scale.mkNodeSpec args part e)) := by
  simp only [foldl_append_const, List.length_range]
  exact foldl_append_flatMap _ l acc

/-- `scale_specs` in flat-map form: partitions in enumeration order, entries in list
order, one replicate block per entry. -/
theorem buildSpecs_eq (args : ScaleArgs) :
    Scale.buildSpecs args
      = Scale.partitions.flatMap
          (fun p =>
            (args.specs p).flatMap
              (fun e => List.replicate e.nodes (Scale.mkNodeSpec args p e))) := by
  unfold Scale.buildSpecs
  simp only [entry_foldl]
  rw [foldl_append_flatMap]
  simp

/-- Flat-map length as a sum of block lengths. -/
theorem flatMap_length {α β : Type} (f : α → List β) :
    ∀ (l : List α), (l.flatMap f).length = (l.map (fun x => (f x).length)).sum
  | [] => by simp
  | x :: xs => by
    simp [List.flatMap_cons, flatMap_length f xs]

/-- The argparse accumulator restricted to one partition is the order-preserving
filter of the command line by that partition. -/
theorem collectSpecs_eq (flags : List (PartitionKind × ScaleSpecEntry)) (p : PartitionKind) :
    Scale.collectSpecs flags p
      = (flags.filter (fun f => f.1 == p)).map Prod.snd := by
  have general :
      ∀ (fs : List (PartitionKind × ScaleSpecEntry))
        (acc : PartitionKind → List ScaleSpecEntry) (q : PartitionKind),
        (fs.foldl
          (fun acc f => fun p => if f.1 = p then acc p ++ [f.2] else acc p) acc) q
        = acc q ++ (fs.filter (fun f => f.1 == q)).map Prod.snd := by
    intro fs
    induction fs with
    | nil => intro acc q; simp
    | cons f fs ih =>
      intro acc q
      by_cases h : f.1 = q
      · simp [List.foldl_cons, List.filter_cons, h, ih]
      · simp [List.foldl_cons, List.filter_cons, h, ih]
  have base := general flags (fun _ => []) p
  simpa [Scale.collectSpecs] using base

end Lemmas

section Examples

/-- Concrete argparse namespace: `--cpu 2:60`, identity fields resolved. -/
def exampleArgs : ScaleArgs :=
  { region := "re"
    pool := "po"
    master := "ma"
    token := "to"
    dryRun := false
    specsCpu := [⟨2, 60⟩]
    specsGpu := []
    specsMem := []
    specsFpga := []
    }

/-- Concrete argparse namespace with no partition flag supplied. -/
def emptyArgs : ScaleArgs :=
  { region := "re"
    pool := "po"
    master := "ma"
    token := "to"
    dryRun := false
    specsCpu := []
    specsGpu := []
    specsMem := []
    specsFpga := []
    }

/-- A remote API stub that accepts every request. -/
def okApi : NodeRequest → Bool → Except String ScaleResult :=
  fun _ _ => Except.ok ⟨"ok"⟩

/-- Command line `--gpu 1:120 --cpu 2:60`, in that supply order. -/
def flagsA : List (PartitionKind × ScaleSpecEntry) :=
  [(PartitionKind.gpu, ⟨1, 120⟩), (PartitionKind.cpu, ⟨2, 60⟩)]

/-- Command line `--cpu 2:60 --gpu 1:120`, the same flags supplied in the other order. -/
def flagsB : List (PartitionKind × ScaleSpecEntry) :=
  [(PartitionKind.cpu, ⟨2, 60⟩), (PartitionKind.gpu, ⟨1, 120⟩)]

end Examples

/-- C1: every spec entry with node count N and duration T expands to exactly N node
requests, each carrying `seconds = T`, a features map in which exactly the entry's
partition is mapped to true, and the resolved identity's region, pool, master URL and
join token; the total compiled request count is the sum of the node counts. -/
theorem scale_compile_expansion (args : ScaleArgs) :
    Scale.buildSpecs args
        = Scale.partitions.flatMap
            (fun p =>
              (args.specs p).flatMap
                (fun e => List.replicate e.nodes (Scale.mkNodeSpec args p e)))
    ∧ (Scale.buildSpecs args).length
        = (Scale.partitions.map
            (fun p => ((args.specs p).map ScaleSpecEntry.nodes).sum)).sum
    ∧ ∀ (p : PartitionKind) (e : ScaleSpecEntry),
        (List.replicate e.nodes (Scale.mkNodeSpec args p e)).length = e.nodes
        ∧ ∀ r, r ∈ List.replicate e.nodes (Scale.mkNodeSpec args p e) →
            r.seconds = e.time
            ∧ r.features.lookup p.name = some true
            ∧ (∀ s : String, s ≠ p.name → r.features.lookup s = none)
            ∧ r.region = args.region ∧ r.pool = args.pool
            ∧ r.master = args.master ∧ r.token = args.token := by
  refine ⟨buildSpecs_eq args, ?_, ?_⟩
  · rw [buildSpecs_eq, flatMap_length]
    simp [flatMap_length, Function.comp_def]
  · intro p e
    refine ⟨by simp, ?_⟩
    intro r hr
    have hr2 := List.eq_of_mem_replicate hr
    subst hr2
    refine ⟨rfl, ?_, ?_, rfl, rfl, rfl, rfl⟩
    · simp [Scale.mkNodeSpec, List.lookup]
    · intro s hs
      have hb : (s == p.name) = false := beq_eq_false_iff_ne.mpr hs
      simp [Scale.mkNodeSpec, List.lookup, hb]

/-- Specs projection of a namespace built from a command line. -/
theorem specs_argsFromFlags (region pool master token : String) (dryRun : Bool)
    (flags : List (PartitionKind × ScaleSpecEntry)) (p : PartitionKind) :
    (Scale.argsFromFlags region pool master token dryRun flags).specs p
      = Scale.collectSpecs flags p := by
  cases p <;> rfl

/-- Compilation from a raw command line, in flat-map form over the fixed partition
enumeration, with each partition consuming its order-preserving filter of the flags. -/
theorem buildSpecs_argsFromFlags (region pool master token : String) (dryRun : Bool)
    (flags : List (PartitionKind × ScaleSpecEntry)) :
    Scale.buildSpecs (Scale.argsFromFlags region pool master token dryRun flags)
      = Scale.partitions.flatMap
          (fun p =>
            ((flags.filter (fun f => f.1 == p)).map Prod.snd).flatMap
              (fun e =>
                List.replicate e.nodes
                  (Scale.mkNodeSpec
                    (Scale.argsFromFlags region pool master token dryRun flags) p e))) := by
  rw [buildSpecs_eq]
  simp only [specs_argsFromFlags, collectSpecs_eq]

/-- C2: the compiled request sequence is grouped by partition in the fixed enumeration
order cpu, gpu, mem, fpga; within one partition the entries appear in the order their
flag occurrences were supplied (the order-preserving filter of the command line); and
within one entry its N requests form the contiguous block `replicate N`, generation
1..N. The output is invariant under any reordering of the command line that keeps each
partition's occurrence subsequence. -/
theorem scale_compile_order (region pool master token : String) (dryRun : Bool)
    (flags : List (PartitionKind × ScaleSpecEntry)) :
    (Scale.buildSpecs (Scale.argsFromFlags region pool master token dryRun flags)
        = Scale.partitions.flatMap
            (fun p =>
              ((flags.filter (fun f => f.1 == p)).map Prod.snd).flatMap
                (fun e =>
                  List.replicate e.nodes
                    (Scale.mkNodeSpec
                      (Scale.argsFromFlags region pool master token dryRun flags) p e))))
    ∧ ∀ flags2 : List (PartitionKind × ScaleSpecEntry),
        (∀ p : PartitionKind,
            flags.filter (fun f => f.1 == p) = flags2.filter (fun f => f.1 == p)) →
        Scale.buildSpecs (Scale.argsFromFlags region pool master token dryRun flags)
          = Scale.buildSpecs (Scale.argsFromFlags region pool master token dryRun flags2) := by
  refine ⟨buildSpecs_argsFromFlags region pool master token dryRun flags, ?_⟩
  intro flags2 h
  rw [buildSpecs_argsFromFlags region pool master token dryRun flags,
    buildSpecs_argsFromFlags region pool master token dryRun flags2]
  have hfun :
      (fun p =>
          ((flags.filter (fun f => f.1 == p)).map Prod.snd).flatMap
            (fun e =>
              List.replicate e.nodes
                (Scale.mkNodeSpec
                  (Scale.argsFromFlags region pool master token dryRun flags) p e)))
        = (fun p =>
            ((flags2.filter (fun f => f.1 == p)).map Prod.snd).flatMap
              (fun e =>
                List.replicate e.nodes
                  (Scale.mkNodeSpec
                    (Scale.argsFromFlags region pool master token dryRun flags2) p e))) :=
    funext fun p => by rw [h p]; rfl
  rw [hfun]

/-- C3: whenever the compiled request count is zero — in particular when no partition
flag was supplied — `Scale.target` fails with the validation message listing all four
`--<partition> <nodes>:<seconds>` usage forms, and dispatches zero requests. -/
theorem scale_zero_requests (args : ScaleArgs)
    (api : NodeRequest → Bool → Except String ScaleResult)
    (h : (Scale.buildSpecs args).length = 0) :
    Scale.target args api
        = ([], Except.error (ScaleError.validation
            "Scaling specifications required: [--cpu <nodes>:<seconds>], [--gpu <nodes>:<seconds>], [--mem <nodes>:<seconds>], [--fpga <nodes>:<seconds>]"))
    ∧ ∀ (region pool master token : String) (dryRun : Bool)
        (api2 : NodeRequest → Bool → Except String ScaleResult),
        Scale.target (Scale.argsFromFlags region pool master token dryRun []) api2
          = ([], Except.error (ScaleError.validation Scale.usageMessage)) := by
  constructor
  · have hmsg : Scale.usageMessage
        = "Scaling specifications required: [--cpu <nodes>:<seconds>], [--gpu <nodes>:<seconds>], [--mem <nodes>:<seconds>], [--fpga <nodes>:<seconds>]" :=
      rfl
    rw [← hmsg]
    simp [Scale.target, h]
  · intro region pool master token dryRun api2
    rfl

/-- Witness for C1 at `--cpu 2:60`. -/
theorem scale_compile_expansion_witness :
    (Scale.mkNodeSpec exampleArgs PartitionKind.cpu ⟨2, 60⟩).seconds = 60
    ∧ (Scale.mkNodeSpec exampleArgs PartitionKind.cpu ⟨2, 60⟩).features.lookup "gpu" = none
    ∧ (Scale.buildSpecs exampleArgs).length = 2 := by
  have h := scale_compile_expansion exampleArgs
  have hblock := (h.2.2 PartitionKind.cpu ⟨2, 60⟩).2
    (Scale.mkNodeSpec exampleArgs PartitionKind.cpu ⟨2, 60⟩) (by simp [List.mem_replicate])
  refine ⟨hblock.1, hblock.2.2.1 "gpu" (by decide), ?_⟩
  rw [h.2.1]
  decide

/-- Witness for C2: `--gpu 1:120 --cpu 2:60` compiles to the same sequence as
`--cpu 2:60 --gpu 1:120`. -/
theorem scale_compile_order_witness :
    Scale.buildSpecs (Scale.argsFromFlags "re" "po" "ma" "to" false flagsA)
      = Scale.buildSpecs (Scale.argsFromFlags "re" "po" "ma" "to" false flagsB) :=
  (scale_compile_order "re" "po" "ma" "to" false flagsA).2 flagsB
    (fun p => by cases p <;> rfl)

/-- Witness for C3 at a namespace with no partition flags. -/
theorem scale_zero_requests_witness :
    Scale.target emptyArgs okApi
      = ([], Except.error (ScaleError.validation
          "Scaling specifications required: [--cpu <nodes>:<seconds>], [--gpu <nodes>:<seconds>], [--mem <nodes>:<seconds>], [--fpga <nodes>:<seconds>]")) :=
  (scale_zero_requests emptyArgs okApi (by decide)).1
